import Mathlib

/-!
# afrog: configuration file handling and runner construction

A shallow embedding of `pkg/config/config.go` and `pkg/runner/runner.go`.

Go values are embedded as follows.

* An `error` is `Option String`: `none` is the nil error, `some msg` an error
  whose `Error()` text is `msg`.
* A pointer to a collaborator object is `Option` of a handle; `none` is nil.
* A function returning `(T, error)` returns a pair; where exactly one of the
  two is ever set (`os.Open`) it returns an `Except`.
* The operating system and the packages that are not part of the two embedded
  files appear as explicit records of their observable outcomes (`OS`, `Yaml`,
  `Env`); the embedded functions thread the state they change.
-/

namespace Afrog

/-- Go's `error` interface, identified with its message; `none` is nil. -/
abbrev error := Option String

/-- The wrapper `errors.Wrap(err, msg)` of github.com/pkg/errors: the text is
`msg`, a colon, a blank and the text of `err`. -/
def errorsWrap (err : String) (msg : String) : String :=
  msg ++ ": " ++ err

/-! ## Package config -/

namespace config

structure Dingtalk where
  Tokens : List String := []
  AtMobiles : List String := []
  AtAll : Bool := false
  Range : String := ""
deriving DecidableEq, Repr

structure Webhook where
  Dingtalk : config.Dingtalk := {}
deriving DecidableEq, Repr

structure Ceye where
  ApiKey : String := ""
  Domain : String := ""
deriving DecidableEq, Repr

structure Dnslogcn where
  Domain : String := ""
deriving DecidableEq, Repr

structure Eye where
  Host : String := ""
  Token : String := ""
  Domain : String := ""
deriving DecidableEq, Repr

structure Alphalog where
  Domain : String := ""
  ApiUrl : String := ""
deriving DecidableEq, Repr

structure Xray where
  XToken : String := ""
  Domain : String := ""
  ApiUrl : String := ""
deriving DecidableEq, Repr

structure Jndi where
  JndiAddress : String := ""
  LdapPort : String := ""
  ApiPort : String := ""
deriving DecidableEq, Repr

structure Reverse where
  Alphalog : config.Alphalog := {}
  Ceye : config.Ceye := {}
  Dnslogcn : config.Dnslogcn := {}
  Eye : config.Eye := {}
  Jndi : config.Jndi := {}
  Xray : config.Xray := {}
deriving DecidableEq, Repr

structure Cyberspace where
  ZoomEyes : List String := []
deriving DecidableEq, Repr

/-- The struct `Config`; the field defaults are Go's zero values, so `{}` is
`Config{}`. -/
structure Config where
  ServerAddress : String := ""
  Reverse : config.Reverse := {}
  Webhook : config.Webhook := {}
  Cyberspace : config.Cyberspace := {}
deriving DecidableEq, Repr

def afrogConfigFilename : String := "afrog-config.yaml"

/-- The function `filepath.Join` as far as this package needs it: the non-empty
elements, separated by a slash (the final `Clean` is not modelled). -/
def filepathJoin : List String → String
  | [] => ""
  | e :: rest =>
    if e = "" then filepathJoin rest
    else if filepathJoin rest = "" then e
    else e ++ "/" ++ filepathJoin rest

/-- The part of the operating system that package config touches.

* `UserHomeDir` is what `os.UserHomeDir()` returns.
* `files` maps a path to the content of the regular file there.
* `openWrite p` is the error, if any, of
  `os.OpenFile(p, O_WRONLY|O_CREATE|O_TRUNC, 0644)`.
* `openRead p` is the error, if any, of `os.Open(p)` on a file that exists
  (a file that may be written but not read, for one).
* `quota` bounds what one `Write` call can store (`none`: no bound), counted
  in characters; a longer buffer is cut there and `Write` reports an error.
* `writes` counts the files created or truncated so far.

Directories are not modelled, so `os.MkdirAll`, whose result the source
discards, does not appear. -/
structure OS where
  UserHomeDir : String × error
  files : String → Option String
  openWrite : String → error
  openRead : String → error
  quota : Option Nat
  writes : Nat

/-- Store `data` as the whole content of the file at `path`. -/
def OS.put (os : OS) (path : String) (data : String) : OS :=
  { os with files := fun p => if p = path then some data else os.files p }

/-- The call `os.OpenFile(path, O_WRONLY|O_CREATE|O_TRUNC, 0644)`: on success
the file exists and is empty. -/
def OS.OpenFile (os : OS) (path : String) : error × OS :=
  match os.openWrite path with
  | some err => (some err, os)
  | none => (none, { os.put path "" with writes := os.writes + 1 })

/-- The call `file.Write(data)` on a file just opened by `OS.OpenFile`. -/
def OS.Write (os : OS) (path : String) (data : String) : error × OS :=
  match os.quota with
  | none => (none, os.put path data)
  | some n =>
    if data.length ≤ n then (none, os.put path data)
    else (some "no space left on device", os.put path (data.take n))

/-- The call `os.Open(path)`: the content to read, or the error. -/
def OS.Open (os : OS) (path : String) : Except String String :=
  match os.files path with
  | none => .error ("open " ++ path ++ ": no such file or directory")
  | some data =>
    match os.openRead path with
    | some err => .error err
    | none => .ok data

/-- The YAML library gopkg.in/yaml.v2 on `Config`: `Marshal` is
`yaml.Marshal(&config)`, and `Decode data` is
`yaml.NewDecoder(file).Decode(config)` on a file holding `data` and a zero
`Config`. -/
structure Yaml where
  Marshal : Config → String × error
  Decode : String → Config × error

end config

namespace utils

/-- Modelled from the spec: `utils.Exists` of pkg/utils, which is not among
the embedded files; it tells whether a file exists at the path. -/
def Exists (os : config.OS) (path : String) : Bool :=
  (os.files path).isSome

end utils

namespace config

/-- Source: `isExistConfigFile`, config.go lines 142 to 154. -/
def isExistConfigFile (os : OS) : error :=
  match os.UserHomeDir with
  | (_, some err) => some (errorsWrap err "could not get home directory")
  | (homeDir, none) =>
    let configFile := filepathJoin [homeDir, ".config", "afrog", afrogConfigFilename]
    if utils.Exists os configFile then none
    else some "could not get config file"

/-- Source: `getConfigFile`, config.go lines 169 to 180. -/
def getConfigFile (os : OS) : String × error :=
  match os.UserHomeDir with
  | (_, some err) => ("", some (errorsWrap err "could not get home directory"))
  | (homeDir, none) =>
    let configDir := filepathJoin [homeDir, ".config", "afrog"]
    let afrogConfigFile := filepathJoin [configDir, afrogConfigFilename]
    (afrogConfigFile, none)

/-- Source: `ReadConfiguration`, config.go lines 183 to 200. -/
def ReadConfiguration (y : Yaml) (os : OS) : Option Config × error :=
  match getConfigFile os with
  | (_, some err) => (none, some err)
  | (afrogConfigFile, none) =>
    match os.Open afrogConfigFile with
    | .error err => (none, some err)
    | .ok file =>
      match y.Decode file with
      | (_, some err) => (none, some err)
      | (config, none) => (some config, none)

/-- Source: `WriteConfiguration`, config.go lines 203 to 224. -/
def WriteConfiguration (y : Yaml) (config : Config) (os : OS) : error × OS :=
  match y.Marshal config with
  | (_, some err) => (some err, os)
  | (afrogConfigYAML, none) =>
    match getConfigFile os with
    | (_, some err) => (some err, os)
    | (afrogConfigFile, none) =>
      match os.OpenFile afrogConfigFile with
      | (some err, os1) => (some err, os1)
      | (none, os1) =>
        match os1.Write afrogConfigFile afrogConfigYAML with
        | (some err, os2) => (some err, os2)
        | (none, os2) => (none, os2)

/-- The value `NewConfig` passes to `WriteConfiguration`, built by the
assignments of config.go lines 93 to 135 on the zero value. -/
def newConfigValue : Config :=
  let c : Config := {}
  let c : Config := { c with ServerAddress := ":16868" }
  let reverse : Reverse := c.Reverse
  -- alphalog
  let reverse : Reverse := { reverse with Alphalog := { reverse.Alphalog with Domain := "" } }
  let reverse : Reverse := { reverse with Alphalog := { reverse.Alphalog with ApiUrl := "" } }
  -- ceye
  let reverse : Reverse := { reverse with Ceye := { reverse.Ceye with ApiKey := "" } }
  let reverse : Reverse := { reverse with Ceye := { reverse.Ceye with Domain := "" } }
  -- dnslogcn
  let reverse : Reverse := { reverse with Dnslogcn := { reverse.Dnslogcn with Domain := "dnslog.cn" } }
  -- eyes.sh
  let reverse : Reverse := { reverse with Eye := { reverse.Eye with Host := "" } }
  let reverse : Reverse := { reverse with Eye := { reverse.Eye with Domain := "" } }
  let reverse : Reverse := { reverse with Eye := { reverse.Eye with Token := "" } }
  -- jndi
  let reverse : Reverse := { reverse with Jndi := { reverse.Jndi with JndiAddress := "" } }
  let reverse : Reverse := { reverse with Jndi := { reverse.Jndi with LdapPort := "" } }
  let reverse : Reverse := { reverse with Jndi := { reverse.Jndi with ApiPort := "" } }
  -- xray
  let reverse : Reverse := { reverse with Xray := { reverse.Xray with XToken := "" } }
  let reverse : Reverse := { reverse with Xray := { reverse.Xray with Domain := "" } }
  let reverse : Reverse := { reverse with Xray := { reverse.Xray with ApiUrl := "http://x.x.x.x:8777" } }
  let c : Config := { c with Reverse := reverse }
  let webhook : Webhook := c.Webhook
  let webhook : Webhook := { webhook with Dingtalk := { webhook.Dingtalk with Tokens := [""] } }
  let webhook : Webhook := { webhook with Dingtalk := { webhook.Dingtalk with AtMobiles := [""] } }
  let webhook : Webhook := { webhook with Dingtalk := { webhook.Dingtalk with AtAll := false } }
  let webhook : Webhook := { webhook with Dingtalk := { webhook.Dingtalk with Range := "high,critical" } }
  let c : Config := { c with Webhook := webhook }
  let cyberspace : Cyberspace := c.Cyberspace
  let cyberspace : Cyberspace := { cyberspace with ZoomEyes := [""] }
  let c : Config := { c with Cyberspace := cyberspace }
  c

/-- Source: `NewConfig`, config.go lines 91 to 140. The error that
`WriteConfiguration` returns is discarded, as in the source. -/
def NewConfig (y : Yaml) (os : OS) : (Option Config × error) × OS :=
  if isExistConfigFile os ≠ none then
    let c := newConfigValue
    let os1 := (WriteConfiguration y c os).2
    (ReadConfiguration y os1, os1)
  else
    (ReadConfiguration y os, os)

/-- The default configuration in the words of the specification: server
address ":16868", dnslogcn domain "dnslog.cn", xray api_url
"http://x.x.x.x:8777", dingtalk range "high,critical", dingtalk at_all false,
the three lists equal to the one-element list of the empty string, every other
string empty. -/
def documentedDefault : Config :=
  { ServerAddress := ":16868",
    Reverse :=
      { Alphalog := { Domain := "", ApiUrl := "" },
        Ceye := { ApiKey := "", Domain := "" },
        Dnslogcn := { Domain := "dnslog.cn" },
        Eye := { Host := "", Token := "", Domain := "" },
        Jndi := { JndiAddress := "", LdapPort := "", ApiPort := "" },
        Xray := { XToken := "", Domain := "", ApiUrl := "http://x.x.x.x:8777" } },
    Webhook :=
      { Dingtalk := { Tokens := [""], AtMobiles := [""], AtAll := false, Range := "high,critical" } },
    Cyberspace := { ZoomEyes := [""] } }

/-- The path of the configuration file below the home directory `homeDir`, as
`isExistConfigFile` computes it. -/
def configPath (homeDir : String) : String :=
  filepathJoin [homeDir, ".config", "afrog", afrogConfigFilename]

/-- A system with a home directory, no files, and no limits. -/
def sampleOS : OS :=
  { UserHomeDir := ("/home/u", none), files := fun _ => none, openWrite := fun _ => none,
    openRead := fun _ => none, quota := none, writes := 0 }

/-- A system where the configuration file is there. -/
def sampleOSWithFile : OS :=
  { sampleOS with files := fun p => if p = configPath "/home/u" then some ":16868" else none }

/-- A system where the configuration file is there and may be written, but
not read. -/
def sampleOSWriteOnly : OS :=
  { sampleOSWithFile with openRead := fun _ => some "permission denied" }

/-- A codec that keeps the server address and nothing else. -/
def sampleYaml : Yaml :=
  { Marshal := fun c => (c.ServerAddress, none),
    Decode := fun data => ({ ServerAddress := data }, none) }

end config

/-! ## Package runner -/

namespace runner

/-- Collaborator objects are identified by a number. -/
abbrev Dingtalk := Nat

abbrev Cyberspace := Nat

abbrev OOBAdapter := Nat

abbrev ScanProgress := Nat

abbrev JsonReport := Nat

abbrev Report := Nat

abbrev Engine := Nat

/-- The fields of `config.Options` that `NewRunner` reads or changes (the
struct is declared in a file that is not embedded). `Config` is a pointer.
`Targets` and `PocsDirectory` are the two containers that `NewRunner` fills,
given by the strings they hold, in order; `Targets.Len()` is the length. -/
structure Options where
  Config : Option config.Config := none
  Proxy : String := ""
  Timeout : Int := 0
  Retries : Int := 0
  MaxRespBodySize : Int := 0
  Dingtalk : Bool := false
  Cyberspace : String := ""
  Query : String := ""
  QueryCount : Int := 0
  OOB : String := ""
  OOBKey : String := ""
  OOBDomain : String := ""
  OOBApiUrl : String := ""
  Resume : String := ""
  Json : String := ""
  JsonAll : String := ""
  Output : String := ""
  Target : List String := []
  Targets : List String := []
  TargetsFile : String := ""
  PocFile : String := ""
  AppendPoc : List String := []
  PocsDirectory : List String := []
  MonitorTargets : Bool := false
deriving DecidableEq, Repr

/-- The struct `Runner`, runner.go lines 29 to 42. The field `options` is the
value the shared options pointer points to; `catalog` is never assigned by
`NewRunner` and is left out. -/
structure Runner where
  options : Options
  Report : Option Report := none
  JsonReport : Option JsonReport := none
  PocsYaml : List String := []
  PocsEmbedYaml : List String := []
  engine : Option Engine := none
  Ding : Option Dingtalk := none
  ScanProgress : Option ScanProgress := none
  Cyberspace : Option Cyberspace := none
deriving DecidableEq, Repr

/-- The calls `NewRunner` makes into other packages, as recorded in the trace
(the container methods `Append`, `Set` and `Len` are not recorded). -/
inductive Call where
  | retryhttpclientInit
  | NewEngine
  | dingtalkNew
  | cyberspaceNew
  | NewOOBAdapter
  | IsVaild
  | gologgerError
  | NewScanProgress
  | NewJsonReport
  | NewReport
  | ReadFileLineByLine
  | GetTargets
  | InitPocHomeDirectory
  | GetPocsPath
deriving DecidableEq, Repr

/-- What the packages called by `NewRunner` answer. None of them is part of
the embedded file, so each is a parameter.

* `NewOOBAdapter` takes the adapter name and the key, domain and API address
  of the connector parameters; `NewReport` takes the output name (its second
  argument in the source is the constant `report.DefaultTemplate`).
* `IsVaild` is the method of that name, on the pointer that was returned.
* `Append` and `Set` are the methods `Targets.Append` and `PocsDirectory.Set`:
  the new content of the container, from the old content and the argument.
* `EmbedFileList` is the package variable `pocs.EmbedFileList`. -/
structure Env where
  NewEngine : Options → Option Engine
  dingtalkNew : List String → List String → String → Bool → Option Dingtalk × error
  cyberspaceNew : Option config.Config → String → String → Int → Option Cyberspace × error
  NewOOBAdapter : String → String → String → String → Option OOBAdapter × error
  IsVaild : Option OOBAdapter → Bool
  NewScanProgress : String → Option ScanProgress × error
  NewJsonReport : String → String → Option JsonReport × error
  NewReport : String → Option Report × error
  ReadFileLineByLine : String → List String × error
  GetTargets : Cyberspace → List String × error
  InitPocHomeDirectory : String × error
  GetPocsPath : List String → List String
  EmbedFileList : List String
  Append : List String → String → List String
  Set : List String → String → List String

/-- The package-level variables `OOB` and `OOBAlive` (runner.go lines 24 to
27) and the messages given to `gologger.Error()`. -/
structure Globals where
  OOB : Option OOBAdapter := none
  OOBAlive : Bool := false
  log : List String := []
deriving DecidableEq, Repr

/-- The state of a run of `NewRunner`: the runner under construction (with the
options it points to), the package variables, and the calls made so far. -/
structure State where
  runner : Runner
  globals : Globals
  calls : List Call
deriving DecidableEq, Repr

/-- How a call of `NewRunner` ends: the two returned values (or a panic), and
what it leaves behind: the options the argument points to, the package
variables and the trace of calls. -/
structure Result where
  runner : Option Runner
  err : error
  panicked : Bool := false
  options : Options
  globals : Globals
  calls : List Call
deriving DecidableEq, Repr

/-- The statement `return runner, err`. -/
def State.ret (s : State) (err : error) : Result :=
  { runner := some s.runner, err := err, options := s.runner.options,
    globals := s.globals, calls := s.calls }

/-- The statement `return nil, err`. -/
def State.retNil (s : State) (err : error) : Result :=
  { runner := none, err := err, options := s.runner.options,
    globals := s.globals, calls := s.calls }

/-- A nil pointer dereference. -/
def State.panic (s : State) : Result :=
  { runner := none, err := none, panicked := true, options := s.runner.options,
    globals := s.globals, calls := s.calls }

/-- Record a call in the trace. -/
def State.call (s : State) (c : Call) : State :=
  { s with calls := s.calls ++ [c] }

/-- The function `unicode.IsSpace`. -/
def isSpace (c : Char) : Bool :=
  let n := c.toNat
  n = 0x09 || n = 0x0A || n = 0x0B || n = 0x0C || n = 0x0D || n = 0x20
    || n = 0x85 || n = 0xA0 || n = 0x1680 || (0x2000 ≤ n && n ≤ 0x200A)
    || n = 0x2028 || n = 0x2029 || n = 0x202F || n = 0x205F || n = 0x3000

/-- The function `strings.TrimSpace`: the string without its leading and
trailing white space. -/
def TrimSpace (s : String) : String :=
  String.mk ((s.data.dropWhile isSpace).reverse.dropWhile isSpace).reverse

/-- The state in which the targets container holds `ts`. -/
def State.withTargets (s : State) (ts : List String) : State :=
  { s with runner := { s.runner with options := { s.runner.options with Targets := ts } } }

/-- The loop `for _, t := range ts { runner.options.Targets.Append(t) }`. -/
def State.appendEach (env : Env) (s : State) (ts : List String) : State :=
  ts.foldl (fun st t => st.withTargets (env.Append st.runner.options.Targets t)) s

/-- The loop `for _, t := range ts` whose body appends `t` to the targets when
`len(strings.TrimSpace(t)) > 0`. -/
def State.appendNonBlank (env : Env) (s : State) (ts : List String) : State :=
  ts.foldl
    (fun st t =>
      if (TrimSpace t).length > 0 then st.withTargets (env.Append st.runner.options.Targets t)
      else st)
    s

/-- The call `runner.options.PocsDirectory.Set(p)`. -/
def State.setPocsDirectory (env : Env) (s : State) (p : String) : State :=
  { s with runner := { s.runner with options :=
      { s.runner.options with PocsDirectory := env.Set s.runner.options.PocsDirectory p } } }

/-- Source: runner.go lines 45 to 56: the HTTP client is set up, the runner is
allocated around the options, the engine is created. -/
def initClient (env : Env) (options : Options) (g : Globals) : State :=
  let s : State :=
    { runner := { options := options }, globals := g, calls := [Call.retryhttpclientInit] }
  let s := s.call Call.NewEngine
  { s with runner := { s.runner with engine := env.NewEngine options } }

/-- Source: runner.go lines 58 to 66. -/
def initDingtalk (env : Env) (s : State) : Except Result State :=
  if s.runner.options.Dingtalk then
    match s.runner.options.Config with
    | none => .error s.panic
    | some cfg =>
      let s := s.call Call.dingtalkNew
      match env.dingtalkNew cfg.Webhook.Dingtalk.Tokens cfg.Webhook.Dingtalk.AtMobiles
          cfg.Webhook.Dingtalk.Range cfg.Webhook.Dingtalk.AtAll with
      | (ding, some err) => .error ({ s with runner := { s.runner with Ding := ding } }.retNil (some err))
      | (ding, none) => .ok { s with runner := { s.runner with Ding := ding } }
  else .ok s

/-- Source: runner.go lines 68 to 75. -/
def initCyberspace (env : Env) (s : State) : Except Result State :=
  let options := s.runner.options
  if options.Cyberspace.length > 0 && options.Query.length > 0 then
    let s := s.call Call.cyberspaceNew
    match env.cyberspaceNew options.Config options.Cyberspace options.Query options.QueryCount with
    | (_, some err) => .error (s.retNil (some err))
    | (cyberspace, none) => .ok { s with runner := { s.runner with Cyberspace := cyberspace } }
  else .ok s

/-- Source: runner.go lines 77 to 91. -/
def initOOB (env : Env) (s : State) : State :=
  let options := s.runner.options
  let s := s.call Call.NewOOBAdapter
  let s : State :=
    match env.NewOOBAdapter options.OOB options.OOBKey options.OOBDomain options.OOBApiUrl with
    | (oobAdapter, none) =>
      let s := s.call Call.IsVaild
      { s with globals := { s.globals with OOB := oobAdapter, OOBAlive := env.IsVaild oobAdapter } }
    | (_, some _) =>
      { s with globals := { s.globals with OOBAlive := false } }
  if !s.globals.OOBAlive then
    let s := s.call Call.gologgerError
    { s with globals := { s.globals with
        log := s.globals.log ++ ["Using OOB Server: " ++ options.OOB ++ " is not vaild"] } }
  else s

/-- Source: runner.go lines 93 to 95. -/
def initScanProgress (env : Env) (s : State) : Except Result State :=
  let options := s.runner.options
  let s := s.call Call.NewScanProgress
  match env.NewScanProgress options.Resume with
  | (sp, some err) =>
    .error ({ s with runner := { s.runner with ScanProgress := sp } }.retNil
      (some (options.Resume ++ " " ++ err)))
  | (sp, none) => .ok { s with runner := { s.runner with ScanProgress := sp } }

/-- Source: runner.go lines 97 to 107. -/
def initReports (env : Env) (s : State) : Except Result State :=
  let options := s.runner.options
  let s := s.call Call.NewJsonReport
  match env.NewJsonReport options.Json options.JsonAll with
  | (_, some err) => .error (s.ret (some err))
  | (jr, none) =>
    let s : State := { s with runner := { s.runner with JsonReport := jr } }
    let s := s.call Call.NewReport
    match env.NewReport options.Output with
    | (_, some err) => .error (s.ret (some err))
    | (report, none) => .ok { s with runner := { s.runner with Report := report } }

/-- Source: runner.go lines 109 to 125: the direct targets, then the lines of
the targets file. -/
def appendInputTargets (env : Env) (s : State) : Except Result State :=
  let s : State :=
    if s.runner.options.Target.length > 0 then s.appendEach env s.runner.options.Target
    else s
  if s.runner.options.TargetsFile.length > 0 then
    let s := s.call Call.ReadFileLineByLine
    match env.ReadFileLineByLine s.runner.options.TargetsFile with
    | (_, some err) => .error (s.ret (some err))
    | (allTargets, none) => .ok (s.appendNonBlank env allTargets)
  else .ok s

/-- Source: runner.go lines 126 to 139: the targets of the discovery query. -/
def appendCyberTargets (env : Env) (s : State) : Except Result State :=
  match s.runner.Cyberspace with
  | some cyberspace =>
    let s := s.call Call.GetTargets
    match env.GetTargets cyberspace with
    | (_, some err) => .error (s.ret (some err))
    | (cyberTargets, none) =>
      if cyberTargets.length > 0 then .ok (s.appendNonBlank env cyberTargets)
      else .ok s
  | none => .ok s

/-- Source: runner.go lines 141 to 143. -/
def checkTargets (s : State) : Except Result State :=
  if s.runner.options.Targets.length == 0 && s.runner.Cyberspace == none then
    .error (s.ret (some "target not found"))
  else .ok s

/-- Source: runner.go lines 145 to 160. -/
def initPocs (env : Env) (s : State) : State :=
  if s.runner.options.PocFile.length > 0 then
    s.setPocsDirectory env s.runner.options.PocFile
  else
    let s := s.call Call.InitPocHomeDirectory
    let pocsDir := env.InitPocHomeDirectory.1
    let s := if pocsDir.length > 0 then s.setPocsDirectory env pocsDir else s
    if s.runner.options.AppendPoc.length > 0 then
      s.runner.options.AppendPoc.foldl (fun st p => st.setPocsDirectory env p) s
    else s

/-- Source: runner.go lines 162 to 173. -/
def checkPocs (env : Env) (s : State) : Result :=
  let s := s.call Call.GetPocsPath
  let allPocsYamlSlice := env.GetPocsPath s.runner.options.PocsDirectory
  if allPocsYamlSlice.length == 0 && env.EmbedFileList.length == 0 then
    s.ret (some "afrog-pocs not found")
  else
    let s : State := { s with runner := { s.runner with PocsYaml := allPocsYamlSlice } }
    let s : State := { s with runner := { s.runner with PocsEmbedYaml := env.EmbedFileList } }
    s.ret none

/-- The run of `NewRunner` up to line 76, where the OOB adapter is about to be
created: the state there, or the result already returned. -/
def beforeOOB (env : Env) (options : Options) (g : Globals) : Except Result State :=
  initDingtalk env (initClient env options g) >>= initCyberspace env

/-- The run of `NewRunner` up to line 92, where `NewScanProgress` is about to
be called. -/
def beforeScanProgress (env : Env) (options : Options) (g : Globals) : Except Result State :=
  beforeOOB env options g >>= fun s => .ok (initOOB env s)

/-- The run of `NewRunner` up to line 140, where the target check is about to
be made. -/
def beforeTargetCheck (env : Env) (options : Options) (g : Globals) : Except Result State :=
  beforeScanProgress env options g >>= initScanProgress env >>= initReports env
    >>= appendInputTargets env >>= appendCyberTargets env

/-- The run of `NewRunner` up to line 161, where the rule check is about to be
made. -/
def beforePocsCheck (env : Env) (options : Options) (g : Globals) : Except Result State :=
  beforeTargetCheck env options g >>= checkTargets >>= fun s => .ok (initPocs env s)

/-- Source: `NewRunner`, runner.go lines 44 to 174. -/
def NewRunner (env : Env) (options : Options) (g : Globals) : Result :=
  match beforePocsCheck env options g with
  | .error r => r
  | .ok s => checkPocs env s

/-- The plain slice append, `append(items, item)`; the sample environment uses
it for `PocsDirectory.Set`. -/
def sliceAppend (items : List String) (item : String) : List String :=
  items ++ [item]

/-- Modelled from the spec: the method `Append` of the container behind
`options.Targets`, whose declaration is not among the embedded files. The spec
has targets "deduplicated by exact string" and the target source "an ordered,
deduplicated sequence": a string the container already holds is not added
again, any other string is added at the end. -/
def targetsAppend (items : List String) (item : String) : List String :=
  if item ∈ items then items else items ++ [item]

/-- The package variables an unfinished or finished run leaves. -/
def outGlobals : Except Result State → Globals
  | .ok s => s.globals
  | .error r => r.globals

/-- What the caller receives from a result: the two returned values, whether
the call panicked, and the options. -/
def Result.returned (r : Result) : Option Runner × error × Bool × Options :=
  (r.runner, r.err, r.panicked, r.options)

/-- Two runs agree on everything but the package variables and the trace. -/
def sameOutcome : Except Result State → Except Result State → Prop
  | .ok s1, .ok s2 => s1.runner = s2.runner
  | .error r1, .error r2 => r1.returned = r2.returned
  | _, _ => False

/-- An environment in which every collaborator succeeds: the targets container
is the one of the specification, the rule directories are appended at the end,
the targets file holds one target and a blank line, the
discovery query finds nothing, the catalog returns the directories it is given
and one rule is embedded. -/
def sampleEnv : Env :=
  { NewEngine := fun _ => some 1,
    dingtalkNew := fun _ _ _ _ => (some 2, none),
    cyberspaceNew := fun _ _ _ _ => (some 3, none),
    NewOOBAdapter := fun _ _ _ _ => (some 4, none),
    IsVaild := fun _ => true,
    NewScanProgress := fun _ => (some 5, none),
    NewJsonReport := fun _ _ => (some 6, none),
    NewReport := fun _ => (some 7, none),
    ReadFileLineByLine := fun _ => (["http://b", "  "], none),
    GetTargets := fun _ => ([], none),
    InitPocHomeDirectory := ("/home/u/afrog-pocs", none),
    GetPocsPath := fun dirs => dirs,
    EmbedFileList := ["embedded.yaml"],
    Append := targetsAppend,
    Set := sliceAppend }

/-- The environment `sampleEnv` with a progress store that cannot be loaded. -/
def sampleEnvNoProgress : Env :=
  { sampleEnv with NewScanProgress := fun _ => (none, some "permission denied") }

/-- The environment `sampleEnv` with a failing webhook client and no OOB
adapter. -/
def sampleEnvNoDingtalk : Env :=
  { sampleEnv with
    dingtalkNew := fun _ _ _ _ => (none, some "no tokens"),
    NewOOBAdapter := fun _ _ _ _ => (none, some "unreachable") }

/-- Options with one direct target. -/
def sampleOptions : Options :=
  { Target := ["http://a"], Resume := "scan.json" }

/-- Options that give the same direct target twice. -/
def sampleOptionsRepeated : Options :=
  { Target := ["http://a", "http://a"] }

/-- Options with a discovery query and no other target source. -/
def sampleOptionsDiscovery : Options :=
  { Cyberspace := "zoomeye", Query := "app:x" }

/-- Options with no target source at all. -/
def sampleOptionsEmpty : Options :=
  {}

/-- Options that ask for the webhook client. -/
def sampleOptionsDingtalk : Options :=
  { Target := ["http://a"], Dingtalk := true, Config := some {} }

/-- The environment `env` with another OOB adapter: `f` in place of
`NewOOBAdapter` and `v` in place of `IsVaild`. -/
def Env.withOOB (env : Env)
    (f : String → String → String → String → Option OOBAdapter × error)
    (v : Option OOBAdapter → Bool) : Env :=
  { env with NewOOBAdapter := f, IsVaild := v }

/-- The lines the targets loops keep: those with something besides white
space. -/
def nonBlank (ts : List String) : List String :=
  ts.filter fun t => (TrimSpace t).length > 0

/-- The calls that can precede `NewScanProgress`. -/
def earlyCalls : List Call :=
  [Call.retryhttpclientInit, Call.NewEngine, Call.dingtalkNew, Call.cyberspaceNew,
    Call.NewOOBAdapter, Call.IsVaild, Call.gologgerError]

/-- The lines of the targets file, when one is named. -/
def fileLines (env : Env) (o : Options) : List String :=
  if o.TargetsFile.length > 0 then (env.ReadFileLineByLine o.TargetsFile).1 else []

/-- The targets of the discovery query, when there is a discovery client. -/
def cyberLines (env : Env) (cyberspace : Option Cyberspace) : List String :=
  match cyberspace with
  | some c => (env.GetTargets c).1
  | none => []

/-- A result that reports a failure: an error or a panic. -/
def Result.failed (r : Result) : Prop :=
  r.err ≠ none ∨ r.panicked = true

end runner

/-! ## Package config: properties -/

namespace config

theorem filepathJoin_nested (h : String) :
    filepathJoin [filepathJoin [h, ".config", "afrog"], afrogConfigFilename]
      = filepathJoin [h, ".config", "afrog", afrogConfigFilename] := by
  by_cases hh : h = ""
  · subst hh
    decide
  · have e1 : filepathJoin [afrogConfigFilename] = "afrog-config.yaml" := by decide
    have e3 : filepathJoin [".config", "afrog", afrogConfigFilename] = ".config/afrog/afrog-config.yaml" := by decide
    have e4 : filepathJoin [".config", "afrog"] = ".config/afrog" := by decide
    have n3 : (".config/afrog/afrog-config.yaml" : String) ≠ "" := by decide
    have n4 : (".config/afrog" : String) ≠ "" := by decide
    have n1 : ("afrog-config.yaml" : String) ≠ "" := by decide
    have ne : h ++ "/" ++ ".config/afrog" ≠ "" := by
      intro hc
      apply hh
      have := congrArg String.data hc
      simp at this
    have inner : filepathJoin [h, ".config", "afrog"] = h ++ "/" ++ ".config/afrog" := by
      rw [filepathJoin.eq_2 h, if_neg hh, e4, if_neg n4]
    rw [inner, filepathJoin.eq_2 (h ++ "/" ++ ".config/afrog"), if_neg ne, e1, if_neg n1,
      filepathJoin.eq_2 h, if_neg hh, e3, if_neg n3]
    apply String.ext
    simp

/-- With a home directory, `getConfigFile` names the path that
`isExistConfigFile` probes. -/
theorem getConfigFile_of_home (os : OS) (home : String) (hh : os.UserHomeDir = (home, none)) :
    getConfigFile os = (configPath home, none) := by
  simp only [getConfigFile, hh, configPath, filepathJoin_nested]

theorem getConfigFile_of_no_home (os : OS) (d e : String) (hh : os.UserHomeDir = (d, some e)) :
    getConfigFile os = ("", some (errorsWrap e "could not get home directory")) := by
  simp only [getConfigFile, hh]

theorem isExistConfigFile_of_home (os : OS) (home : String) (hh : os.UserHomeDir = (home, none)) :
    isExistConfigFile os
      = if utils.Exists os (configPath home) then none else some "could not get config file" := by
  simp only [isExistConfigFile, hh, configPath]

theorem newConfigValue_eq : newConfigValue = documentedDefault := by
  rfl

/-- When the configuration file is found, `NewConfig` only reads. -/
theorem NewConfig_of_exists (y : Yaml) (os : OS) (h : isExistConfigFile os = none) :
    NewConfig y os = (ReadConfiguration y os, os) := by
  simp [NewConfig, h]

/-- A call of `WriteConfiguration` either leaves the system as it was, or
creates or truncates the configuration file, once. -/
theorem WriteConfiguration_effect (y : Yaml) (c : Config) (os : OS) :
    (WriteConfiguration y c os).2 = os ∨
      (isExistConfigFile (WriteConfiguration y c os).2 = none
        ∧ (WriteConfiguration y c os).2.writes = os.writes + 1) := by
  unfold WriteConfiguration
  rcases hm : y.Marshal c with ⟨data, _ | me⟩
  swap
  · simp
  rcases hu : os.UserHomeDir with ⟨home, _ | he⟩
  swap
  · simp [getConfigFile_of_no_home os home he hu]
  simp only [getConfigFile_of_home os home hu]
  cases ho : os.openWrite (configPath home) with
  | some e => simp [OS.OpenFile, ho]
  | none =>
    right
    simp only [OS.OpenFile, ho, OS.Write]
    cases hq : os.quota with
    | none =>
      simp [OS.put, hq, isExistConfigFile, hu, utils.Exists, configPath]
    | some n =>
      by_cases hl : data.length ≤ n <;>
        simp [OS.put, hq, hl, isExistConfigFile, hu, utils.Exists, configPath]

/-- After a `WriteConfiguration` of `c` that returns no error, and when the
file can be opened for reading, `ReadConfiguration` returns what the YAML
library decodes from the text it marshalled for `c`. -/
theorem ReadConfiguration_after_write (y : Yaml) (os : OS) (c : Config)
    (hw : (WriteConfiguration y c os).1 = none)
    (hr : os.openRead (getConfigFile os).1 = none) :
    ReadConfiguration y (WriteConfiguration y c os).2 =
      match y.Decode (y.Marshal c).1 with
      | (_, some err) => (none, some err)
      | (config, none) => (some config, none) := by
  unfold WriteConfiguration at hw ⊢
  rcases hm : y.Marshal c with ⟨data, _ | me⟩
  swap
  · simp [hm] at hw
  rcases hu : os.UserHomeDir with ⟨home, _ | he⟩
  swap
  · simp [hm, getConfigFile_of_no_home os home he hu] at hw
  rw [getConfigFile_of_home os home hu] at hr
  simp only [configPath] at hr
  simp only [hm, getConfigFile_of_home os home hu] at hw ⊢
  cases ho : os.openWrite (configPath home) with
  | some e => simp [OS.OpenFile, ho] at hw
  | none =>
    simp only [OS.OpenFile, ho, OS.Write] at hw ⊢
    cases hq : os.quota with
    | none =>
      simp [ReadConfiguration, getConfigFile, hu, filepathJoin_nested, OS.put, OS.Open, hq,
        configPath, hr]
    | some n =>
      by_cases hl : data.length ≤ n
      · simp [ReadConfiguration, getConfigFile, hu, filepathJoin_nested, OS.put, OS.Open, hq,
          hl, configPath, hr]
      · simp [OS.put, hq, hl] at hw

/-- Claim C6, as the code has it: after a `WriteConfiguration` of `c` that
returns no error, and when the configuration file can then be opened for
reading, `ReadConfiguration` returns exactly what the YAML library decodes from
the text it marshalled for `c`; it returns `c` and no error precisely when
that decoding gives `c` back. -/
theorem WriteConfiguration_ReadConfiguration_roundtrip (y : Yaml) (os : OS) (c : Config)
    (hw : (WriteConfiguration y c os).1 = none)
    (hr : os.openRead (getConfigFile os).1 = none) :
    (ReadConfiguration y (WriteConfiguration y c os).2 =
        match y.Decode (y.Marshal c).1 with
        | (_, some err) => (none, some err)
        | (config, none) => (some config, none))
      ∧ (ReadConfiguration y (WriteConfiguration y c os).2 = (some c, none)
          ↔ y.Decode (y.Marshal c).1 = (c, none)) := by
  have key := ReadConfiguration_after_write y os c hw hr
  refine ⟨key, ?_⟩
  rw [key]
  rcases hd : y.Decode (y.Marshal c).1 with ⟨cfg, _ | e⟩
  · simp
  · simp

/-- The theorem on a system without limits and a codec that keeps the server
address. -/
theorem WriteConfiguration_ReadConfiguration_roundtrip_witness :
    ReadConfiguration sampleYaml
        (WriteConfiguration sampleYaml { ServerAddress := ":1" } sampleOS).2
      = (some { ServerAddress := ":1" }, none) :=
  (WriteConfiguration_ReadConfiguration_roundtrip sampleYaml sampleOS { ServerAddress := ":1" }
    (by decide) (by decide)).2.2 (by decide)

/-- Claim C6 fails as stated: on a configuration file that may be written but
not read, `WriteConfiguration` returns no error for a configuration that the
codec decodes back, and the `ReadConfiguration` that follows returns an
error. -/
theorem WriteConfiguration_then_unreadable :
    (WriteConfiguration sampleYaml { ServerAddress := ":1" } sampleOSWriteOnly).1 = none
      ∧ sampleYaml.Decode (sampleYaml.Marshal { ServerAddress := ":1" }).1
          = ({ ServerAddress := ":1" }, none)
      ∧ ReadConfiguration sampleYaml
            (WriteConfiguration sampleYaml { ServerAddress := ":1" } sampleOSWriteOnly).2
          = (none, some "permission denied") := by
  decide

/-- Claim C7: when the home directory is known and no file exists at the
configuration path, `NewConfig` calls `WriteConfiguration` with the documented
default configuration and returns what `ReadConfiguration` then reads; if that
write reports no error, the file exists afterwards and holds the marshalled
default, and if the file can also be opened for reading, what `NewConfig`
returns is what the YAML library decodes from the marshalled default. -/
theorem NewConfig_writes_default (y : Yaml) (os : OS) (home : String)
    (hh : os.UserHomeDir = (home, none))
    (hf : utils.Exists os (configPath home) = false) :
    newConfigValue = documentedDefault
      ∧ (NewConfig y os).2 = (WriteConfiguration y documentedDefault os).2
      ∧ (NewConfig y os).1 = ReadConfiguration y (WriteConfiguration y documentedDefault os).2
      ∧ ((WriteConfiguration y documentedDefault os).1 = none →
          (NewConfig y os).2.files (configPath home) = some (y.Marshal documentedDefault).1)
      ∧ ((WriteConfiguration y documentedDefault os).1 = none →
          os.openRead (configPath home) = none →
          (NewConfig y os).1 =
            match y.Decode (y.Marshal documentedDefault).1 with
            | (_, some err) => (none, some err)
            | (config, none) => (some config, none)) := by
  have hne : isExistConfigFile os ≠ none := by
    simp [isExistConfigFile_of_home os home hh, hf]
  have hN2 : (NewConfig y os).2 = (WriteConfiguration y documentedDefault os).2 := by
    simp [NewConfig, hne, newConfigValue_eq]
  have hN1 : (NewConfig y os).1
      = ReadConfiguration y (WriteConfiguration y documentedDefault os).2 := by
    simp [NewConfig, hne, newConfigValue_eq]
  refine ⟨newConfigValue_eq, hN2, hN1, ?_, ?_⟩
  · intro hw
    rw [hN2]
    unfold WriteConfiguration at hw ⊢
    rcases hm : y.Marshal documentedDefault with ⟨data, _ | me⟩
    swap
    · simp [hm] at hw
    simp only [hm, getConfigFile_of_home os home hh] at hw ⊢
    cases ho : os.openWrite (configPath home) with
    | some e => simp [OS.OpenFile, ho] at hw
    | none =>
      simp only [OS.OpenFile, ho, OS.Write] at hw ⊢
      cases hq : os.quota with
      | none => simp [OS.put, hq]
      | some n =>
        by_cases hl : data.length ≤ n
        · simp [OS.put, hq, hl]
        · simp [OS.put, hq, hl] at hw
  · intro hw hr
    rw [hN1]
    apply ReadConfiguration_after_write y os documentedDefault hw
    rw [getConfigFile_of_home os home hh]
    exact hr

/-- The theorem on a system with a home directory and no files: the write
succeeds and the file holds what the codec makes of the default. -/
theorem NewConfig_writes_default_witness :
    (NewConfig sampleYaml sampleOS).2.files (configPath "/home/u") = some ":16868" :=
  (NewConfig_writes_default sampleYaml sampleOS "/home/u" rfl (by decide)).2.2.2.1 (by decide)

/-- Claim C8: when the home directory is known and the configuration file
exists, `NewConfig` leaves the system `os` as it is (no file is created,
truncated or written) and returns what `ReadConfiguration` returns there; and
from any state `os0`, two calls of `NewConfig` in a row create or truncate the
file at most once and the second returns what the first did. -/
theorem NewConfig_keeps_existing_file (y : Yaml) (os os0 : OS) (home : String)
    (hh : os.UserHomeDir = (home, none))
    (hf : utils.Exists os (configPath home) = true) :
    (NewConfig y os).2 = os
      ∧ (NewConfig y os).1 = ReadConfiguration y os
      ∧ (NewConfig y (NewConfig y os0).2).1 = (NewConfig y os0).1
      ∧ (NewConfig y (NewConfig y os0).2).2.writes ≤ os0.writes + 1 := by
  have he : isExistConfigFile os = none := by
    simp [isExistConfigFile_of_home os home hh, hf]
  refine ⟨by rw [NewConfig_of_exists y os he], by rw [NewConfig_of_exists y os he], ?_⟩
  by_cases h0 : isExistConfigFile os0 = none
  · simp [NewConfig_of_exists y os0 h0]
  · have hN : NewConfig y os0
        = (ReadConfiguration y (WriteConfiguration y newConfigValue os0).2,
            (WriteConfiguration y newConfigValue os0).2) := by
      simp [NewConfig, h0]
    rcases WriteConfiguration_effect y newConfigValue os0 with hs | ⟨hex, hwr⟩
    · rw [hN, hs, hN, hs]
      simp
    · rw [hN]
      simp only
      rw [NewConfig_of_exists y _ hex]
      simp [hwr]

/-- The theorem on a system where the file is there, and on two calls that
start without the file. -/
theorem NewConfig_keeps_existing_file_witness :
    (NewConfig sampleYaml sampleOSWithFile).2.writes = 0
      ∧ (NewConfig sampleYaml sampleOSWithFile).1 = (some { ServerAddress := ":16868" }, none)
      ∧ (NewConfig sampleYaml (NewConfig sampleYaml sampleOS).2).1
          = (NewConfig sampleYaml sampleOS).1
      ∧ (NewConfig sampleYaml (NewConfig sampleYaml sampleOS).2).2.writes ≤ 1 :=
  have w := NewConfig_keeps_existing_file sampleYaml sampleOSWithFile sampleOS "/home/u" rfl
    (by decide)
  ⟨by rw [w.1]; rfl, by rw [w.2.1]; decide, w.2.2.1, w.2.2.2⟩

end config

/-! ## Package runner: properties -/

namespace runner

theorem outGlobals_bind (x : Except Result State) (f : State → Except Result State)
    (hf : ∀ s, outGlobals (f s) = s.globals) : outGlobals (x >>= f) = outGlobals x := by
  cases x with
  | error r => rfl
  | ok s => exact hf s

theorem sameOutcome_bind (x1 x2 : Except Result State) (f1 f2 : State → Except Result State)
    (hx : sameOutcome x1 x2)
    (hf : ∀ s1 s2, s1.runner = s2.runner → sameOutcome (f1 s1) (f2 s2)) :
    sameOutcome (x1 >>= f1) (x2 >>= f2) := by
  cases x1 with
  | error r1 =>
    cases x2 with
    | error r2 => exact hx
    | ok s2 => exact hx.elim
  | ok s1 =>
    cases x2 with
    | error r2 => exact hx.elim
    | ok s2 => exact hf s1 s2 hx

theorem initDingtalk_globals (env : Env) (s : State) :
    outGlobals (initDingtalk env s) = s.globals := by
  unfold initDingtalk
  split
  · split
    · rfl
    · split <;> rfl
  · rfl

theorem initCyberspace_globals (env : Env) (s : State) :
    outGlobals (initCyberspace env s) = s.globals := by
  unfold initCyberspace
  simp only
  split
  · split <;> rfl
  · rfl

theorem initScanProgress_globals (env : Env) (s : State) :
    outGlobals (initScanProgress env s) = s.globals := by
  unfold initScanProgress
  simp only
  split <;> rfl

theorem initReports_globals (env : Env) (s : State) :
    outGlobals (initReports env s) = s.globals := by
  unfold initReports
  simp only
  split
  · rfl
  · split <;> rfl

theorem appendEach_eq (env : Env) (s : State) (ts : List String) :
    s.appendEach env ts = s.withTargets (ts.foldl env.Append s.runner.options.Targets) := by
  induction ts generalizing s with
  | nil => rfl
  | cons t ts ih =>
    simp only [State.appendEach, List.foldl_cons] at ih ⊢
    rw [ih]
    rfl

theorem appendNonBlank_eq (env : Env) (s : State) (ts : List String) :
    s.appendNonBlank env ts
      = s.withTargets ((nonBlank ts).foldl env.Append s.runner.options.Targets) := by
  induction ts generalizing s with
  | nil => rfl
  | cons t ts ih =>
    simp only [State.appendNonBlank, List.foldl_cons] at ih ⊢
    rw [ih]
    by_cases ht : (TrimSpace t).length > 0
    · simp only [ht, if_true, nonBlank, List.filter_cons, decide_True, List.foldl_cons]
      rfl
    · simp only [ht, if_false, nonBlank, List.filter_cons, decide_False]
      simp

theorem initDingtalk_ok {env : Env} {s s' : State} (h : initDingtalk env s = .ok s') :
    s'.runner.options = s.runner.options ∧ s'.runner.Cyberspace = s.runner.Cyberspace
      ∧ s'.globals = s.globals ∧ (∀ c ∈ s'.calls, c ∈ s.calls ∨ c = Call.dingtalkNew) := by
  unfold initDingtalk at h
  split at h
  · split at h
    · cases h
    · split at h
      · cases h
      · cases h
        simp [State.call]
  · cases h
    simp only [true_and]
    intro c hc
    exact Or.inl hc

theorem initCyberspace_ok {env : Env} {s s' : State} (h : initCyberspace env s = .ok s') :
    s'.runner.options = s.runner.options ∧ s'.globals = s.globals
      ∧ (∀ c ∈ s'.calls, c ∈ s.calls ∨ c = Call.cyberspaceNew) := by
  unfold initCyberspace at h
  simp only at h
  split at h
  · split at h
    · cases h
    · cases h
      simp [State.call]
  · cases h
    simp only [true_and]
    intro c hc
    exact Or.inl hc

theorem initOOB_frame (env : Env) (s : State) :
    (initOOB env s).runner = s.runner
      ∧ (∀ c ∈ (initOOB env s).calls,
          c ∈ s.calls ∨ c = Call.NewOOBAdapter ∨ c = Call.IsVaild ∨ c = Call.gologgerError) := by
  unfold initOOB
  simp only
  split <;> split <;> simp [State.call] <;> tauto

theorem initOOB_alive (env : Env) (s : State) :
    (initOOB env s).globals.OOBAlive
      = (decide ((env.NewOOBAdapter s.runner.options.OOB s.runner.options.OOBKey
            s.runner.options.OOBDomain s.runner.options.OOBApiUrl).2 = none)
          && env.IsVaild (env.NewOOBAdapter s.runner.options.OOB s.runner.options.OOBKey
            s.runner.options.OOBDomain s.runner.options.OOBApiUrl).1) := by
  unfold initOOB
  simp only
  rcases hn : env.NewOOBAdapter s.runner.options.OOB s.runner.options.OOBKey
      s.runner.options.OOBDomain s.runner.options.OOBApiUrl with ⟨a, _ | e⟩
  · cases hv : env.IsVaild a <;> simp [State.call, hv]
  · simp [State.call]

theorem initScanProgress_ok {env : Env} {s s' : State} (h : initScanProgress env s = .ok s') :
    s'.runner.options = s.runner.options ∧ s'.runner.Cyberspace = s.runner.Cyberspace := by
  unfold initScanProgress at h
  simp only at h
  split at h
  · cases h
  · cases h
    simp [State.call]

theorem initReports_ok {env : Env} {s s' : State} (h : initReports env s = .ok s') :
    s'.runner.options = s.runner.options ∧ s'.runner.Cyberspace = s.runner.Cyberspace := by
  unfold initReports at h
  simp only at h
  split at h
  · cases h
  · split at h
    · cases h
    · cases h
      simp [State.call]

theorem appendInputTargets_ok {env : Env} {s s' : State} (h : appendInputTargets env s = .ok s') :
    s'.runner.options =
        { s.runner.options with
          Targets := (s.runner.options.Target
              ++ nonBlank (if s.runner.options.TargetsFile.length > 0
                  then (env.ReadFileLineByLine s.runner.options.TargetsFile).1 else [])).foldl
            env.Append s.runner.options.Targets }
      ∧ s'.runner.Cyberspace = s.runner.Cyberspace := by
  unfold appendInputTargets at h
  simp only [appendEach_eq, appendNonBlank_eq] at h
  have e0 : (if s.runner.options.Target.length > 0
        then s.withTargets (s.runner.options.Target.foldl env.Append s.runner.options.Targets)
        else s)
      = s.withTargets (s.runner.options.Target.foldl env.Append s.runner.options.Targets) := by
    split
    · rfl
    · next hn =>
      have : s.runner.options.Target = [] := by
        cases ht : s.runner.options.Target with
        | nil => rfl
        | cons a l => simp [ht] at hn
      rw [this]
      rfl
  rw [e0] at h
  by_cases hf : s.runner.options.TargetsFile.length > 0
  · simp only [State.withTargets, hf, if_true, State.call] at h ⊢
    split at h
    · cases h
    · next all heq =>
      cases h
      simp [heq, List.foldl_append, State.withTargets]
  · simp only [State.withTargets, hf, if_false] at h ⊢
    cases h
    simp [nonBlank]

theorem appendCyberTargets_ok {env : Env} {s s' : State} (h : appendCyberTargets env s = .ok s') :
    s'.runner.options =
        { s.runner.options with
          Targets := (nonBlank (match s.runner.Cyberspace with
                | some c => (env.GetTargets c).1
                | none => [])).foldl
            env.Append s.runner.options.Targets }
      ∧ s'.runner.Cyberspace = s.runner.Cyberspace := by
  unfold appendCyberTargets at h
  simp only [appendNonBlank_eq] at h
  split at h
  · next c hc =>
    simp only [hc]
    split at h
    · cases h
    · next ct heq =>
      split at h
      · cases h
        simp [heq, State.withTargets, State.call, hc]
      · next hn =>
        have : ct = [] := by
          cases ct with
          | nil => rfl
          | cons a l => simp at hn
        cases h
        simp [heq, this, nonBlank, State.call, hc]
  · next hc =>
    cases h
    simp [hc, nonBlank]

theorem bind_ok {x : Except Result State} {f : State → Except Result State} {s : State}
    (h : x >>= f = .ok s) : ∃ a, x = .ok a ∧ f a = .ok s := by
  cases x with
  | error r => cases h
  | ok a => exact ⟨a, rfl, h⟩

theorem beforeOOB_ok {env : Env} {o : Options} {g : Globals} {s : State}
    (h : beforeOOB env o g = .ok s) :
    s.runner.options = o ∧ s.globals = g ∧ ∀ c ∈ s.calls, c ∈ earlyCalls := by
  obtain ⟨a, ha, hs⟩ := bind_ok h
  obtain ⟨h1, _, h3, h4⟩ := initDingtalk_ok ha
  obtain ⟨k1, k2, k3⟩ := initCyberspace_ok hs
  refine ⟨by rw [k1, h1]; rfl, by rw [k2, h3]; rfl, ?_⟩
  intro c hc
  rcases k3 c hc with hc | hc
  · rcases h4 c hc with hc | hc
    · simp [initClient, State.call] at hc
      rcases hc with hc | hc <;> subst hc <;> decide
    · subst hc
      decide
  · subst hc
    decide

theorem beforeScanProgress_ok {env : Env} {o : Options} {g : Globals} {s : State}
    (h : beforeScanProgress env o g = .ok s) :
    (∃ s0, beforeOOB env o g = .ok s0 ∧ s = initOOB env s0)
      ∧ s.runner.options = o ∧ ∀ c ∈ s.calls, c ∈ earlyCalls := by
  obtain ⟨a, ha, hs⟩ := bind_ok h
  cases hs
  obtain ⟨h1, _, h3⟩ := beforeOOB_ok ha
  obtain ⟨f1, f2⟩ := initOOB_frame env a
  refine ⟨⟨a, ha, rfl⟩, by rw [f1, h1], ?_⟩
  intro c hc
  rcases f2 c hc with hc | hc | hc | hc
  · exact h3 c hc
  · subst hc
    decide
  · subst hc
    decide
  · subst hc
    decide

theorem beforeTargetCheck_ok {env : Env} {o : Options} {g : Globals} {s : State}
    (h : beforeTargetCheck env o g = .ok s) :
    s.runner.options =
      { o with
        Targets :=
          List.foldl env.Append o.Targets
            (o.Target ++ nonBlank (fileLines env o)
              ++ nonBlank (cyberLines env s.runner.Cyberspace)) } := by
  unfold beforeTargetCheck at h
  obtain ⟨s4, h4, hs⟩ := bind_ok h
  obtain ⟨s3, h3, hs4⟩ := bind_ok h4
  obtain ⟨s2, h2, hs3⟩ := bind_ok h3
  obtain ⟨s1, h1, hs2⟩ := bind_ok h2
  obtain ⟨_, e1, _⟩ := beforeScanProgress_ok h1
  obtain ⟨e2, _⟩ := initScanProgress_ok hs2
  obtain ⟨e3, _⟩ := initReports_ok hs3
  obtain ⟨e4, c4⟩ := appendInputTargets_ok hs4
  obtain ⟨e5, c5⟩ := appendCyberTargets_ok hs
  rw [e5, e4, e3, e2, e1, c5]
  simp [List.foldl_append, fileLines, cyberLines]

theorem setPocsDirectory_fold_frame (env : Env) (ps : List String) (st : State) :
    (ps.foldl (fun st p => st.setPocsDirectory env p) st).runner.options.Targets
        = st.runner.options.Targets
      ∧ (ps.foldl (fun st p => st.setPocsDirectory env p) st).runner.Cyberspace
        = st.runner.Cyberspace := by
  induction ps generalizing st with
  | nil => exact ⟨rfl, rfl⟩
  | cons p ps ih =>
    simp only [List.foldl_cons]
    obtain ⟨a, b⟩ := ih (st.setPocsDirectory env p)
    exact ⟨by rw [a]; rfl, by rw [b]; rfl⟩

theorem initPocs_frame (env : Env) (s : State) :
    (initPocs env s).runner.options.Targets = s.runner.options.Targets
      ∧ (initPocs env s).runner.Cyberspace = s.runner.Cyberspace := by
  unfold initPocs
  split
  · exact ⟨rfl, rfl⟩
  · simp only
    generalize hX : (if env.InitPocHomeDirectory.1.length > 0
        then (s.call Call.InitPocHomeDirectory).setPocsDirectory env env.InitPocHomeDirectory.1
        else s.call Call.InitPocHomeDirectory) = X
    have hXp : X.runner.options.Targets = s.runner.options.Targets
        ∧ X.runner.Cyberspace = s.runner.Cyberspace := by
      subst hX
      split <;> exact ⟨rfl, rfl⟩
    split
    · obtain ⟨a, b⟩ := setPocsDirectory_fold_frame env X.runner.options.AppendPoc X
      rw [a, b]
      exact hXp
    · exact hXp

theorem bind_error {x : Except Result State} {f : State → Except Result State} {r : Result}
    (h : x >>= f = .error r) : x = .error r ∨ ∃ a, x = .ok a ∧ f a = .error r := by
  cases x with
  | error r0 => exact Or.inl h
  | ok a => exact Or.inr ⟨a, rfl, h⟩

theorem initDingtalk_error {env : Env} {s : State} {r : Result}
    (h : initDingtalk env s = .error r) : r.failed := by
  unfold initDingtalk at h
  split at h
  · split at h
    · cases h
      exact Or.inr rfl
    · split at h
      · cases h
        exact Or.inl (by simp [State.retNil])
      · cases h
  · cases h

theorem initCyberspace_error {env : Env} {s : State} {r : Result}
    (h : initCyberspace env s = .error r) : r.failed := by
  unfold initCyberspace at h
  simp only at h
  split at h
  · split at h
    · cases h
      exact Or.inl (by simp [State.retNil])
    · cases h
  · cases h

theorem initScanProgress_error {env : Env} {s : State} {r : Result}
    (h : initScanProgress env s = .error r) : r.failed := by
  unfold initScanProgress at h
  simp only at h
  split at h
  · cases h
    exact Or.inl (by simp [State.retNil])
  · cases h

theorem initReports_error {env : Env} {s : State} {r : Result}
    (h : initReports env s = .error r) : r.failed := by
  unfold initReports at h
  simp only at h
  split at h
  · cases h
    exact Or.inl (by simp [State.ret])
  · split at h
    · cases h
      exact Or.inl (by simp [State.ret])
    · cases h

theorem appendInputTargets_error {env : Env} {s : State} {r : Result}
    (h : appendInputTargets env s = .error r) : r.failed := by
  unfold appendInputTargets at h
  simp only at h
  generalize (if s.runner.options.Target.length > 0
    then s.appendEach env s.runner.options.Target else s) = X at h
  split at h
  · split at h
    · cases h
      exact Or.inl (by simp [State.ret])
    · cases h
  · cases h

theorem appendCyberTargets_error {env : Env} {s : State} {r : Result}
    (h : appendCyberTargets env s = .error r) : r.failed := by
  unfold appendCyberTargets at h
  split at h
  · split at h
    · cases h
      exact Or.inl (by simp [State.ret])
    · split at h <;> cases h
  · cases h

theorem checkTargets_error {s : State} {r : Result}
    (h : checkTargets s = .error r) : r.failed := by
  unfold checkTargets at h
  split at h
  · cases h
    exact Or.inl (by simp [State.ret])
  · cases h

theorem checkTargets_ok {s s' : State} (h : checkTargets s = .ok s') : s' = s := by
  unfold checkTargets at h
  split at h
  · cases h
  · cases h
    rfl

theorem beforeTargetCheck_error {env : Env} {o : Options} {g : Globals} {r : Result}
    (h : beforeTargetCheck env o g = .error r) : r.failed := by
  unfold beforeTargetCheck at h
  rcases bind_error h with h | ⟨_, h, hs⟩
  swap
  · exact appendCyberTargets_error hs
  rcases bind_error h with h | ⟨_, h, hs⟩
  swap
  · exact appendInputTargets_error hs
  rcases bind_error h with h | ⟨_, h, hs⟩
  swap
  · exact initReports_error hs
  rcases bind_error h with h | ⟨_, h, hs⟩
  swap
  · exact initScanProgress_error hs
  unfold beforeScanProgress at h
  rcases bind_error h with h | ⟨_, h, hs⟩
  swap
  · cases hs
  unfold beforeOOB at h
  rcases bind_error h with h | ⟨_, h, hs⟩
  · exact initDingtalk_error h
  · exact initCyberspace_error hs

theorem beforePocsCheck_error {env : Env} {o : Options} {g : Globals} {r : Result}
    (h : beforePocsCheck env o g = .error r) : r.failed := by
  unfold beforePocsCheck at h
  rcases bind_error h with h | ⟨_, h, hs⟩
  swap
  · cases hs
  rcases bind_error h with h | ⟨_, h, hs⟩
  · exact beforeTargetCheck_error h
  · exact checkTargets_error hs

theorem beforePocsCheck_ok {env : Env} {o : Options} {g : Globals} {s : State}
    (h : beforePocsCheck env o g = .ok s) :
    ∃ s0, beforeTargetCheck env o g = .ok s0 ∧ checkTargets s0 = .ok s0 ∧ s = initPocs env s0 := by
  unfold beforePocsCheck at h
  obtain ⟨a, ha, hs⟩ := bind_ok h
  obtain ⟨b, hb, hc⟩ := bind_ok ha
  cases hs
  have hab := checkTargets_ok hc
  subst hab
  exact ⟨a, hb, hc, rfl⟩

theorem checkPocs_frame (env : Env) (s : State) :
    (checkPocs env s).options = s.runner.options
      ∧ (checkPocs env s).globals = s.globals
      ∧ (checkPocs env s).panicked = false
      ∧ ∃ r, (checkPocs env s).runner = some r ∧ r.options = s.runner.options
          ∧ r.Cyberspace = s.runner.Cyberspace := by
  unfold checkPocs
  simp only
  split <;> simp [State.ret, State.call]

/-- Claim C1, as the code has it: once `NewRunner` reaches the target check, it
returns the error "target not found" exactly when the assembled target list is
empty and no discovery client was set up; it then returns the runner with that
error, and otherwise it goes on to the rule set-up and the rule check. -/
theorem NewRunner_target_not_found_iff (env : Env) (o : Options) (g : Globals) (s : State)
    (h : beforeTargetCheck env o g = .ok s) :
    ((NewRunner env o g).err = some "target not found"
        ↔ s.runner.options.Targets.length = 0 ∧ s.runner.Cyberspace = none)
      ∧ (s.runner.options.Targets.length = 0 ∧ s.runner.Cyberspace = none →
          (NewRunner env o g).runner = some s.runner)
      ∧ (¬ (s.runner.options.Targets.length = 0 ∧ s.runner.Cyberspace = none) →
          NewRunner env o g = checkPocs env (initPocs env s)) := by
  have hpocs : (checkPocs env (initPocs env s)).err ≠ some "target not found" := by
    unfold checkPocs
    simp only
    split
    · simp only [State.ret, ne_eq, Option.some.injEq]
      decide
    · simp [State.ret]
  by_cases hc : s.runner.options.Targets.length = 0 ∧ s.runner.Cyberspace = none
  · have hN : NewRunner env o g = s.ret (some "target not found") := by
      simp [NewRunner, beforePocsCheck, h, bind, Except.bind, checkTargets, hc.1, hc.2]
    refine ⟨?_, ?_, ?_⟩
    · simp [hN, State.ret, hc]
    · intro _
      simp [hN, State.ret]
    · intro hn
      exact (hn hc).elim
  · have hN : NewRunner env o g = checkPocs env (initPocs env s) := by
      have hcond : (s.runner.options.Targets.length == 0 && s.runner.Cyberspace == none) = false := by
        rw [Bool.and_eq_false_iff]
        by_cases h1 : s.runner.options.Targets.length = 0
        · right
          have h2 : s.runner.Cyberspace ≠ none := fun h2 => hc ⟨h1, h2⟩
          simpa using h2
        · left
          simpa using h1
      simp [NewRunner, beforePocsCheck, h, bind, Except.bind, checkTargets, hcond]
    refine ⟨?_, ?_, ?_⟩
    · rw [hN]
      constructor
      · intro he
        exact (hpocs he).elim
      · intro hh
        exact (hc hh).elim
    · intro hh
      exact (hc hh).elim
    · intro _
      exact hN

/-- The theorem on options without any target source. -/
theorem NewRunner_target_not_found_iff_witness :
    (NewRunner sampleEnv sampleOptionsEmpty {}).err = some "target not found" :=
  (NewRunner_target_not_found_iff sampleEnv sampleOptionsEmpty {} _ rfl).1.2 (by decide)

/-- Claim C1 fails as stated: with a discovery client that finds nothing and no
other target source, `NewRunner` reaches the target check with an empty target
list and returns no error. -/
theorem NewRunner_discovery_without_targets :
    (beforeTargetCheck sampleEnv sampleOptionsDiscovery {}).toOption.map
        (fun s => s.runner.options.Targets) = some []
      ∧ (NewRunner sampleEnv sampleOptionsDiscovery {}).err = none := by
  decide

/-- Claim C2: once `NewRunner` reaches the rule check, it returns the error
"afrog-pocs not found" exactly when the catalog's path list and the embedded
list are both empty; otherwise it returns the runner with a nil error, and the
runner's `PocsYaml` and `PocsEmbedYaml` are those two lists. -/
theorem NewRunner_pocs_not_found_iff (env : Env) (o : Options) (g : Globals) (s : State)
    (h : beforePocsCheck env o g = .ok s) :
    ((NewRunner env o g).err = some "afrog-pocs not found"
        ↔ env.GetPocsPath s.runner.options.PocsDirectory = [] ∧ env.EmbedFileList = [])
      ∧ (¬ (env.GetPocsPath s.runner.options.PocsDirectory = [] ∧ env.EmbedFileList = []) →
          (NewRunner env o g).err = none
            ∧ (NewRunner env o g).panicked = false
            ∧ ∃ r, (NewRunner env o g).runner = some r
                ∧ r.PocsYaml = env.GetPocsPath s.runner.options.PocsDirectory
                ∧ r.PocsEmbedYaml = env.EmbedFileList) := by
  have hN : NewRunner env o g = checkPocs env s := by
    simp [NewRunner, h]
  rw [hN]
  unfold checkPocs
  simp only [State.call]
  by_cases hc : env.GetPocsPath s.runner.options.PocsDirectory = [] ∧ env.EmbedFileList = []
  · simp [hc.1, hc.2, State.ret]
  · have hcond : ((env.GetPocsPath s.runner.options.PocsDirectory).length == 0
        && env.EmbedFileList.length == 0) = false := by
      rw [Bool.and_eq_false_iff]
      by_cases h1 : env.GetPocsPath s.runner.options.PocsDirectory = []
      · right
        have h2 : env.EmbedFileList ≠ [] := fun h2 => hc ⟨h1, h2⟩
        simpa using h2
      · left
        simpa using h1
    simp [hcond, hc, State.ret]

/-- The theorem on the sample environment, where the catalog returns the home
rule directory and one rule is embedded. -/
theorem NewRunner_pocs_not_found_iff_witness :
    (NewRunner sampleEnv sampleOptions {}).err = none
      ∧ (NewRunner sampleEnv sampleOptions {}).panicked = false
      ∧ ∃ r, (NewRunner sampleEnv sampleOptions {}).runner = some r
          ∧ r.PocsYaml = ["/home/u/afrog-pocs"] ∧ r.PocsEmbedYaml = ["embedded.yaml"] :=
  (NewRunner_pocs_not_found_iff sampleEnv sampleOptions {} _ rfl).2 (by decide)

/-- Claim C3: when the run of `NewRunner` gets to `NewScanProgress` and that call
returns an error, `NewRunner` returns a nil runner and the error whose text is
the resume identifier, a blank and the text of that error; the options are as
they were passed in, and neither the targets file, nor the discovery query, nor
the rule directory or the catalog has been consulted. -/
theorem NewRunner_resume_error (env : Env) (o : Options) (g : Globals) (s : State)
    (e : String) (h : beforeScanProgress env o g = .ok s)
    (he : (env.NewScanProgress o.Resume).2 = some e) :
    (NewRunner env o g).runner = none
      ∧ (NewRunner env o g).err = some (o.Resume ++ " " ++ e)
      ∧ (NewRunner env o g).panicked = false
      ∧ (NewRunner env o g).options = o
      ∧ (NewRunner env o g).calls = s.calls ++ [Call.NewScanProgress]
      ∧ Call.ReadFileLineByLine ∉ (NewRunner env o g).calls
      ∧ Call.GetTargets ∉ (NewRunner env o g).calls
      ∧ Call.InitPocHomeDirectory ∉ (NewRunner env o g).calls
      ∧ Call.GetPocsPath ∉ (NewRunner env o g).calls := by
  obtain ⟨_, ho, hcalls⟩ := beforeScanProgress_ok h
  subst ho
  rcases hsp : env.NewScanProgress s.runner.options.Resume with ⟨sp, err⟩
  rw [hsp] at he
  simp only at he
  subst he
  have hN : NewRunner env s.runner.options g
      = ({ s.call Call.NewScanProgress with
            runner := { s.runner with ScanProgress := sp } }.retNil
          (some (s.runner.options.Resume ++ " " ++ e))) := by
    simp [NewRunner, beforePocsCheck, beforeTargetCheck, h, bind, Except.bind, initScanProgress,
      hsp, State.call]
  have hnot : ∀ c : Call, c ∉ earlyCalls → c ≠ Call.NewScanProgress →
      c ∉ s.calls ++ [Call.NewScanProgress] := by
    intro c h1 h2 hm
    rcases List.mem_append.1 hm with hm | hm
    · exact h1 (hcalls c hm)
    · exact h2 (by simpa using hm)
  rw [hN]
  refine ⟨rfl, rfl, rfl, rfl, rfl, ?_, ?_, ?_, ?_⟩
  · exact hnot _ (by decide) (by decide)
  · exact hnot _ (by decide) (by decide)
  · exact hnot _ (by decide) (by decide)
  · exact hnot _ (by decide) (by decide)

/-- The theorem on an environment whose progress store cannot be loaded. -/
theorem NewRunner_resume_error_witness :
    (NewRunner sampleEnvNoProgress sampleOptions {}).runner = none
      ∧ (NewRunner sampleEnvNoProgress sampleOptions {}).err = some "scan.json permission denied" :=
  have w := NewRunner_resume_error sampleEnvNoProgress sampleOptions {} _
    "permission denied" rfl rfl
  ⟨w.1, w.2.1⟩

/-- When `NewRunner` succeeds, the target list is what results from the list
already in the options by appending, in this order and with the container's
`Append`, whatever that method does, every direct target, then every line of
the targets file that is not blank, then every result of the discovery query
that is not blank. -/
theorem NewRunner_targets_foldl (env : Env) (o : Options) (g : Globals)
    (herr : (NewRunner env o g).err = none) (hp : (NewRunner env o g).panicked = false) :
    ∃ r, (NewRunner env o g).runner = some r
      ∧ (NewRunner env o g).options = r.options
      ∧ r.options.Targets =
          List.foldl env.Append o.Targets
            (o.Target ++ nonBlank (fileLines env o) ++ nonBlank (cyberLines env r.Cyberspace)) := by
  cases hb : beforePocsCheck env o g with
  | error r0 =>
    have hN : NewRunner env o g = r0 := by simp [NewRunner, hb]
    rcases beforePocsCheck_error hb with hf | hf
    · exact (hf (hN ▸ herr)).elim
    · rw [hN, hf] at hp
      cases hp
  | ok s =>
    have hN : NewRunner env o g = checkPocs env s := by simp [NewRunner, hb]
    obtain ⟨s0, h0, _, hs⟩ := beforePocsCheck_ok hb
    obtain ⟨f1, _, _, r, f4, f5, f6⟩ := checkPocs_frame env s
    obtain ⟨p1, p2⟩ := initPocs_frame env s0
    have ht := beforeTargetCheck_ok h0
    refine ⟨r, by rw [hN, f4], by rw [hN, f1, f5], ?_⟩
    rw [f5, f6, hs, p1, p2, ht]

theorem targetsAppend_nodup (items : List String) (item : String) (h : items.Nodup) :
    (targetsAppend items item).Nodup := by
  unfold targetsAppend
  split
  · exact h
  · next hn =>
    rw [List.nodup_append]
    refine ⟨h, List.nodup_singleton item, ?_⟩
    intro a ha hb
    rw [List.mem_singleton] at hb
    subst hb
    exact hn ha

theorem targetsAppend_foldl_nodup (ts items : List String) (h : items.Nodup) :
    (List.foldl targetsAppend items ts).Nodup := by
  induction ts generalizing items with
  | nil => exact h
  | cons t ts ih =>
    simp only [List.foldl_cons]
    exact ih _ (targetsAppend_nodup items t h)

theorem targetsAppend_foldl_sublist (ts items : List String) :
    List.Sublist (List.foldl targetsAppend items ts) (items ++ ts) := by
  induction ts generalizing items with
  | nil => simp
  | cons t ts ih =>
    simp only [List.foldl_cons]
    refine (ih (targetsAppend items t)).trans ?_
    unfold targetsAppend
    split
    · exact List.Sublist.append_left (List.sublist_cons_self t ts) items
    · simp

theorem targetsAppend_foldl_mem (ts items : List String) (x : String) :
    x ∈ List.foldl targetsAppend items ts ↔ x ∈ items ∨ x ∈ ts := by
  induction ts generalizing items with
  | nil => simp
  | cons t ts ih =>
    simp only [List.foldl_cons]
    rw [ih]
    unfold targetsAppend
    split
    · next hm =>
      constructor
      · rintro (h | h)
        · exact Or.inl h
        · exact Or.inr (List.mem_cons_of_mem _ h)
      · rintro (h | h)
        · exact Or.inl h
        · rcases List.mem_cons.1 h with h | h
          · subst h
            exact Or.inl hm
          · exact Or.inr h
    · simp only [List.mem_append, List.mem_singleton, List.mem_cons]
      tauto

/-- Claim C5: when `NewRunner` succeeds on a targets container that holds no
string twice and appends as the specification has it, the target list is the
earlier content of the container followed by the direct targets, then the
lines of the targets file that are not blank, then the results of the discovery
query that are not blank, each in its source order and each string at its
first occurrence only: no string occurs in the list twice, the list is a
sublist of that sequence, and it holds every string of it. -/
theorem NewRunner_targets_ordered_nodup (env : Env) (o : Options) (g : Globals)
    (hA : env.Append = targetsAppend) (hT : o.Targets.Nodup)
    (herr : (NewRunner env o g).err = none) (hp : (NewRunner env o g).panicked = false) :
    ∃ r, (NewRunner env o g).runner = some r
      ∧ (NewRunner env o g).options = r.options
      ∧ r.options.Targets =
          List.foldl targetsAppend o.Targets
            (o.Target ++ nonBlank (fileLines env o) ++ nonBlank (cyberLines env r.Cyberspace))
      ∧ r.options.Targets.Nodup
      ∧ List.Sublist r.options.Targets
          (o.Targets ++ (o.Target ++ nonBlank (fileLines env o)
            ++ nonBlank (cyberLines env r.Cyberspace)))
      ∧ ∀ t, t ∈ r.options.Targets ↔
          t ∈ o.Targets ∨ t ∈ o.Target ++ nonBlank (fileLines env o)
            ++ nonBlank (cyberLines env r.Cyberspace) := by
  obtain ⟨r, h1, h2, h3⟩ := NewRunner_targets_foldl env o g herr hp
  rw [hA] at h3
  refine ⟨r, h1, h2, h3, ?_, ?_, ?_⟩
  · rw [h3]
    exact targetsAppend_foldl_nodup _ _ hT
  · rw [h3]
    exact targetsAppend_foldl_sublist _ _
  · intro t
    rw [h3]
    exact targetsAppend_foldl_mem _ _ t

/-- The theorem on a direct target given twice and a targets file with one
target and a blank line. -/
theorem NewRunner_targets_ordered_nodup_witness :
    ∃ r, (NewRunner sampleEnv { sampleOptionsRepeated with TargetsFile := "targets.txt" }
          {}).runner = some r
      ∧ r.options.Targets = ["http://a", "http://b"] := by
  obtain ⟨r, h1, _, h3, _⟩ :=
    NewRunner_targets_ordered_nodup sampleEnv
      { sampleOptionsRepeated with TargetsFile := "targets.txt" } {} rfl (by decide)
      (by decide) (by decide)
  refine ⟨r, h1, ?_⟩
  have hr : r.Cyberspace = none := by
    have : (NewRunner sampleEnv { sampleOptionsRepeated with TargetsFile := "targets.txt" }
        {}).runner.map (fun r => r.Cyberspace) = some none := by decide
    rw [h1] at this
    simpa using this
  rw [h3, hr]
  decide

theorem appendInputTargets_globals (env : Env) (s : State) :
    outGlobals (appendInputTargets env s) = s.globals := by
  unfold appendInputTargets
  simp only [appendEach_eq, appendNonBlank_eq]
  split <;> split <;> (try split) <;> rfl

theorem appendCyberTargets_globals (env : Env) (s : State) :
    outGlobals (appendCyberTargets env s) = s.globals := by
  unfold appendCyberTargets
  simp only [appendNonBlank_eq]
  split
  · split
    · rfl
    · split <;> rfl
  · rfl

theorem checkTargets_globals (s : State) : outGlobals (checkTargets s) = s.globals := by
  unfold checkTargets
  split <;> rfl

theorem setPocsDirectory_fold_globals (env : Env) (ps : List String) (st : State) :
    (ps.foldl (fun st p => st.setPocsDirectory env p) st).globals = st.globals := by
  induction ps generalizing st with
  | nil => rfl
  | cons p ps ih =>
    simp only [List.foldl_cons]
    rw [ih]
    rfl

theorem initPocs_globals (env : Env) (s : State) : (initPocs env s).globals = s.globals := by
  unfold initPocs
  split
  · rfl
  · simp only
    generalize hX : (if env.InitPocHomeDirectory.1.length > 0
        then (s.call Call.InitPocHomeDirectory).setPocsDirectory env env.InitPocHomeDirectory.1
        else s.call Call.InitPocHomeDirectory) = X
    have hXp : X.globals = s.globals := by
      subst hX
      split <;> rfl
    split
    · rw [setPocsDirectory_fold_globals, hXp]
    · exact hXp

/-- After the OOB block, nothing in `NewRunner` touches the package variables. -/
theorem NewRunner_globals (env : Env) (o : Options) (g : Globals) :
    (NewRunner env o g).globals = outGlobals (beforeScanProgress env o g) := by
  have h1 : outGlobals (beforePocsCheck env o g) = outGlobals (beforeScanProgress env o g) := by
    unfold beforePocsCheck beforeTargetCheck
    rw [outGlobals_bind _ (fun s => Except.ok (initPocs env s)) (fun s => initPocs_globals env s),
      outGlobals_bind _ _ checkTargets_globals,
      outGlobals_bind _ _ (appendCyberTargets_globals env),
      outGlobals_bind _ _ (appendInputTargets_globals env),
      outGlobals_bind _ _ (initReports_globals env),
      outGlobals_bind _ _ (initScanProgress_globals env)]
  rw [← h1]
  unfold NewRunner
  cases beforePocsCheck env o g with
  | error r => rfl
  | ok s => exact (checkPocs_frame env s).2.1

theorem beforeOOB_globals (env : Env) (o : Options) (g : Globals) :
    outGlobals (beforeOOB env o g) = g := by
  unfold beforeOOB
  rw [outGlobals_bind _ _ (initCyberspace_globals env), initDingtalk_globals]
  rfl

theorem initDingtalk_same (env : Env)
    (f : String → String → String → String → Option OOBAdapter × error)
    (v : Option OOBAdapter → Bool) (s1 s2 : State)
    (h : s1.runner = s2.runner) :
    sameOutcome (initDingtalk env s1) (initDingtalk (env.withOOB f v) s2) := by
  obtain ⟨r1, g1, c1⟩ := s1
  obtain ⟨r2, g2, c2⟩ := s2
  simp only at h
  subst h
  unfold initDingtalk
  simp only [Env.withOOB, State.call]
  split
  · split
    · simp [sameOutcome, State.panic, Result.returned]
    · split <;> simp_all [sameOutcome, State.retNil, Result.returned]
  · simp [sameOutcome]

theorem initCyberspace_same (env : Env)
    (f : String → String → String → String → Option OOBAdapter × error)
    (v : Option OOBAdapter → Bool) (s1 s2 : State)
    (h : s1.runner = s2.runner) :
    sameOutcome (initCyberspace env s1) (initCyberspace (env.withOOB f v) s2) := by
  obtain ⟨r1, g1, c1⟩ := s1
  obtain ⟨r2, g2, c2⟩ := s2
  simp only at h
  subst h
  unfold initCyberspace
  simp only [Env.withOOB, State.call]
  split
  · split <;> simp_all [sameOutcome, State.retNil, Result.returned]
  · simp [sameOutcome]

theorem initOOB_same (env : Env)
    (f : String → String → String → String → Option OOBAdapter × error)
    (v : Option OOBAdapter → Bool) (s1 s2 : State)
    (h : s1.runner = s2.runner) :
    sameOutcome (.ok (initOOB env s1)) (.ok (initOOB (env.withOOB f v) s2)) := by
  simp only [sameOutcome]
  rw [(initOOB_frame env s1).1, (initOOB_frame (env.withOOB f v) s2).1, h]

theorem initScanProgress_same (env : Env)
    (f : String → String → String → String → Option OOBAdapter × error)
    (v : Option OOBAdapter → Bool) (s1 s2 : State)
    (h : s1.runner = s2.runner) :
    sameOutcome (initScanProgress env s1) (initScanProgress (env.withOOB f v) s2) := by
  obtain ⟨r1, g1, c1⟩ := s1
  obtain ⟨r2, g2, c2⟩ := s2
  simp only at h
  subst h
  unfold initScanProgress
  simp only [Env.withOOB, State.call]
  split <;> simp_all [sameOutcome, State.retNil, Result.returned]

theorem initReports_same (env : Env)
    (f : String → String → String → String → Option OOBAdapter × error)
    (v : Option OOBAdapter → Bool) (s1 s2 : State)
    (h : s1.runner = s2.runner) :
    sameOutcome (initReports env s1) (initReports (env.withOOB f v) s2) := by
  obtain ⟨r1, g1, c1⟩ := s1
  obtain ⟨r2, g2, c2⟩ := s2
  simp only at h
  subst h
  unfold initReports
  simp only [Env.withOOB, State.call]
  split
  · simp_all [sameOutcome, State.ret, Result.returned]
  · split <;> simp_all [sameOutcome, State.ret, Result.returned]

theorem appendInputTargets_same (env : Env)
    (f : String → String → String → String → Option OOBAdapter × error)
    (v : Option OOBAdapter → Bool) (s1 s2 : State)
    (h : s1.runner = s2.runner) :
    sameOutcome (appendInputTargets env s1) (appendInputTargets (env.withOOB f v) s2) := by
  obtain ⟨r1, g1, c1⟩ := s1
  obtain ⟨r2, g2, c2⟩ := s2
  simp only at h
  subst h
  unfold appendInputTargets
  simp only [appendEach_eq, appendNonBlank_eq, Env.withOOB, State.call, State.withTargets]
  split <;> split <;> (try split) <;> simp_all [sameOutcome, State.ret, Result.returned]

theorem appendCyberTargets_same (env : Env)
    (f : String → String → String → String → Option OOBAdapter × error)
    (v : Option OOBAdapter → Bool) (s1 s2 : State)
    (h : s1.runner = s2.runner) :
    sameOutcome (appendCyberTargets env s1) (appendCyberTargets (env.withOOB f v) s2) := by
  obtain ⟨r1, g1, c1⟩ := s1
  obtain ⟨r2, g2, c2⟩ := s2
  simp only at h
  subst h
  unfold appendCyberTargets
  simp only [appendNonBlank_eq, Env.withOOB, State.call, State.withTargets]
  split
  · split
    · simp_all [sameOutcome, State.ret, Result.returned]
    · split <;> simp_all [sameOutcome, State.ret, Result.returned]
  · simp [sameOutcome]

theorem checkTargets_same (s1 s2 : State) (h : s1.runner = s2.runner) :
    sameOutcome (checkTargets s1) (checkTargets s2) := by
  obtain ⟨r1, g1, c1⟩ := s1
  obtain ⟨r2, g2, c2⟩ := s2
  simp only at h
  subst h
  unfold checkTargets
  split <;> simp [sameOutcome, State.ret, Result.returned]

theorem setPocsDirectory_fold_runner (env : Env)
    (f : String → String → String → String → Option OOBAdapter × error)
    (v : Option OOBAdapter → Bool) (ps : List String)
    (s1 s2 : State) (h : s1.runner = s2.runner) :
    (ps.foldl (fun st p => st.setPocsDirectory env p) s1).runner
      = (ps.foldl (fun st p => st.setPocsDirectory (env.withOOB f v) p) s2).runner := by
  induction ps generalizing s1 s2 with
  | nil => exact h
  | cons p ps ih =>
    simp only [List.foldl_cons]
    apply ih
    simp [State.setPocsDirectory, Env.withOOB, h]

theorem initPocs_same (env : Env)
    (f : String → String → String → String → Option OOBAdapter × error)
    (v : Option OOBAdapter → Bool) (s1 s2 : State)
    (h : s1.runner = s2.runner) :
    (initPocs env s1).runner = (initPocs (env.withOOB f v) s2).runner := by
  unfold initPocs
  by_cases hc : s2.runner.options.PocFile.length > 0
  · simp only [h, hc, if_true]
    simp [State.setPocsDirectory, Env.withOOB, h]
  · simp only [h, hc, if_false]
    generalize hX1 : (if env.InitPocHomeDirectory.1.length > 0
        then (s1.call Call.InitPocHomeDirectory).setPocsDirectory env env.InitPocHomeDirectory.1
        else s1.call Call.InitPocHomeDirectory) = X1
    generalize hX2 : (if (env.withOOB f v).InitPocHomeDirectory.1.length > 0
        then (s2.call Call.InitPocHomeDirectory).setPocsDirectory (env.withOOB f v)
          (env.withOOB f v).InitPocHomeDirectory.1
        else s2.call Call.InitPocHomeDirectory) = X2
    have hX : X1.runner = X2.runner := by
      subst hX1 hX2
      simp only [Env.withOOB]
      split <;> simp [State.setPocsDirectory, State.call, h]
    rw [hX]
    split
    · exact setPocsDirectory_fold_runner env f v _ X1 X2 hX
    · exact hX

theorem checkPocs_same (env : Env)
    (f : String → String → String → String → Option OOBAdapter × error)
    (v : Option OOBAdapter → Bool) (s1 s2 : State)
    (h : s1.runner = s2.runner) :
    (checkPocs env s1).returned = (checkPocs (env.withOOB f v) s2).returned := by
  obtain ⟨r1, g1, c1⟩ := s1
  obtain ⟨r2, g2, c2⟩ := s2
  simp only at h
  subst h
  unfold checkPocs
  simp only [Env.withOOB, State.call]
  split <;> simp [State.ret, Result.returned]

theorem beforePocsCheck_same (env : Env)
    (f : String → String → String → String → Option OOBAdapter × error)
    (v : Option OOBAdapter → Bool) (o : Options)
    (g : Globals) :
    sameOutcome (beforePocsCheck env o g) (beforePocsCheck (env.withOOB f v) o g) := by
  unfold beforePocsCheck beforeTargetCheck beforeScanProgress beforeOOB
  refine sameOutcome_bind _ _ _ _ ?_ (fun s1 s2 h => initPocs_same env f v s1 s2 h)
  refine sameOutcome_bind _ _ _ _ ?_ checkTargets_same
  refine sameOutcome_bind _ _ _ _ ?_ (appendCyberTargets_same env f v)
  refine sameOutcome_bind _ _ _ _ ?_ (appendInputTargets_same env f v)
  refine sameOutcome_bind _ _ _ _ ?_ (initReports_same env f v)
  refine sameOutcome_bind _ _ _ _ ?_ (initScanProgress_same env f v)
  refine sameOutcome_bind _ _ _ _ ?_ (initOOB_same env f v)
  refine sameOutcome_bind _ _ _ _ ?_ (initCyberspace_same env f v)
  apply initDingtalk_same
  simp [initClient, State.call, Env.withOOB]

/-- Claim C4, as the code has it: whatever the OOB adapter does, `NewRunner` returns
the same runner, error, panic status and options; and `OOBAlive` after the call
is, when the run got to the OOB block, true exactly when the adapter was
created without error and its validity check returned true, and otherwise the
value it had before the call. -/
theorem NewRunner_OOB_independent (env : Env) (o : Options) (g : Globals)
    (f : String → String → String → String → Option OOBAdapter × error)
    (v : Option OOBAdapter → Bool) :
    (NewRunner (env.withOOB f v) o g).returned = (NewRunner env o g).returned
      ∧ (NewRunner env o g).globals.OOBAlive =
          match beforeOOB env o g with
          | .ok _ =>
            decide ((env.NewOOBAdapter o.OOB o.OOBKey o.OOBDomain o.OOBApiUrl).2 = none)
              && env.IsVaild (env.NewOOBAdapter o.OOB o.OOBKey o.OOBDomain o.OOBApiUrl).1
          | .error _ => g.OOBAlive := by
  constructor
  · have hs := beforePocsCheck_same env f v o g
    unfold NewRunner
    cases h1 : beforePocsCheck env o g with
    | error r1 =>
      cases h2 : beforePocsCheck (env.withOOB f v) o g with
      | error r2 =>
        rw [h1, h2] at hs
        exact hs.symm
      | ok s2 =>
        rw [h1, h2] at hs
        exact hs.elim
    | ok s1 =>
      cases h2 : beforePocsCheck (env.withOOB f v) o g with
      | error r2 =>
        rw [h1, h2] at hs
        exact hs.elim
      | ok s2 =>
        rw [h1, h2] at hs
        exact (checkPocs_same env f v s1 s2 hs).symm
  · rw [NewRunner_globals]
    unfold beforeScanProgress
    cases hb : beforeOOB env o g with
    | error r =>
      have hg := beforeOOB_globals env o g
      rw [hb] at hg
      simp only [outGlobals] at hg
      simp [bind, Except.bind, outGlobals, hg]
    | ok s =>
      obtain ⟨ho, _, _⟩ := beforeOOB_ok hb
      simp only [bind, Except.bind, outGlobals]
      rw [initOOB_alive, ho]

/-- Claim C4 fails as stated: after a first call that found the OOB adapter valid, a
second call that returns at the webhook error leaves `OOBAlive` true, although
no adapter can be created then. -/
theorem NewRunner_stale_OOBAlive :
    (NewRunner sampleEnv sampleOptions {}).globals.OOBAlive = true
      ∧ (NewRunner sampleEnvNoDingtalk sampleOptionsDingtalk
            (NewRunner sampleEnv sampleOptions {}).globals).err = some "no tokens"
      ∧ ¬ ((NewRunner sampleEnvNoDingtalk sampleOptionsDingtalk
              (NewRunner sampleEnv sampleOptions {}).globals).globals.OOBAlive = true
            ↔ ((sampleEnvNoDingtalk.NewOOBAdapter sampleOptionsDingtalk.OOB
                  sampleOptionsDingtalk.OOBKey sampleOptionsDingtalk.OOBDomain
                  sampleOptionsDingtalk.OOBApiUrl).2 = none
                ∧ sampleEnvNoDingtalk.IsVaild
                    (sampleEnvNoDingtalk.NewOOBAdapter sampleOptionsDingtalk.OOB
                      sampleOptionsDingtalk.OOBKey sampleOptionsDingtalk.OOBDomain
                      sampleOptionsDingtalk.OOBApiUrl).1 = true)) := by
  decide

end runner

end Afrog
